import Mathlib

/-!
Verification of the centaur-tutor learning-review scheduler.

This file gives a shallow embedding of the scheduling core of the
repository — the `QuizStore` JSON repository (`src/tutor/quiz-store.ts`),
the `SpacedRepetitionEngine` (`src/tutor/spaced-repetition.ts`) and the
weekly-report aggregation of `CentaurTutor` (`src/tutor/core.ts`) — and
proves the specified properties about it.

Modelling conventions:
- ISO-8601 timestamp strings are modelled as integers measured in days;
  the string comparisons `<=`/`>=` of the source agree with the integer
  order because ISO-8601 strings compare lexicographically in time order.
- JavaScript `number` values holding stage indices are modelled as `Int`
  (the source applies `Math.min`/`Math.max` arithmetic to them); counters
  that are only ever zeroed and incremented are modelled as `Nat`.
- JavaScript `Map` objects are modelled as association lists in insertion
  order, which is exactly the iteration order `Map.entries()` guarantees.
- `undefined` results (missing records, absent JSON fields) are modelled
  with `Option`.
-/

/-- Result of one review, `ReviewRecord.result` in `src/types.ts`:
`"pass" | "fail" | "skip"`. -/
inductive ReviewResult where
  | pass
  | fail
  | skip
deriving DecidableEq, Repr

/-- One quiz item, `QuizItem` in `src/types.ts`. -/
structure QuizItem where
  id : String
  topic : String
  question : String
  expectedAnswer : String
  difficulty : Int
  tags : List String
  createdAt : Int
  sourceFile : Option String
deriving DecidableEq, Repr

/-- One review record, `ReviewRecord` in `src/types.ts`. -/
structure ReviewRecord where
  quizId : String
  reviewedAt : Int
  userAnswer : Option String
  result : ReviewResult
  feedback : Option String
deriving DecidableEq, Repr

/-- Per-quiz scheduling state, `SpacedRepetitionMeta` in `src/types.ts`. -/
structure SpacedRepetitionMeta where
  quizId : String
  currentStage : Int
  nextReviewDate : Int
  consecutiveCorrect : Nat
  totalAttempts : Nat
  totalCorrect : Nat
  lastReviewedAt : Option Int
deriving DecidableEq, Repr

/-- Study-session method tag, the `method` field of `StudySession`. -/
inductive SessionMethod where
  | ingest
  | spar
  | review
  | report
deriving DecidableEq, Repr

/-- One study session, `StudySession` in `src/types.ts`. -/
structure StudySession where
  id : String
  startedAt : Int
  endedAt : Option Int
  topic : String
  summary : String
  quizIds : List String
  method : SessionMethod
deriving DecidableEq, Repr

/-- One sparring round, `SparringRound` in `src/types.ts`. -/
structure SparringRound where
  round : Nat
  aiChallenge : String
  userResponse : Option String
  evaluation : Option String
  weaknessFound : Option String
deriving DecidableEq, Repr

/-- One sparring session, `SparringSession` in `src/types.ts`. -/
structure SparringSession where
  id : String
  topic : String
  startedAt : Int
  rounds : List SparringRound
  finalEvaluation : Option String
deriving DecidableEq, Repr

/-- A ranked weakness, `WeaknessItem` in `src/types.ts`. -/
structure WeaknessItem where
  quizId : String
  topic : String
  failCount : Nat
  sampleWrongAnswer : Option String
  suggestion : String
deriving DecidableEq, Repr

/-- A weekly report, `WeeklyReport` in `src/types.ts`.  The floating-point
`correctRate` percentage is modelled as an exact rational. -/
structure WeeklyReport where
  periodStart : Int
  periodEnd : Int
  generatedAt : Int
  totalReviews : Nat
  correctRate : ℚ
  topicsStudied : Nat
  topWeaknesses : List WeaknessItem
  recommendations : List String
deriving DecidableEq, Repr

/-- Scheduler configuration, `ReviewScheduleConfig` in `src/types.ts`. -/
structure ReviewScheduleConfig where
  intervals : List Int
  morningCron : String
  eveningCron : String
  weeklyReportCron : String
deriving DecidableEq, Repr

/-- The whole persisted dataset, `QuizDatabase` in `src/types.ts`. -/
structure QuizDatabase where
  quizzes : List QuizItem
  reviews : List ReviewRecord
  spacedRepetition : List SpacedRepetitionMeta
  sessions : List StudySession
  sparringSessions : List SparringSession
  weeklyReports : List WeeklyReport
  lastUpdated : Int
deriving DecidableEq, Repr

/-- A raw persisted document as read back from disk: every top-level
field may be missing or malformed (not an array), which `Array.isArray`
detects in `QuizStore.sanitize`; both cases are modelled as `none`. -/
structure RawQuizDatabase where
  quizzes : Option (List QuizItem)
  reviews : Option (List ReviewRecord)
  spacedRepetition : Option (List SpacedRepetitionMeta)
  sessions : Option (List StudySession)
  sparringSessions : Option (List SparringSession)
  weeklyReports : Option (List WeeklyReport)
  lastUpdated : Option Int
deriving DecidableEq, Repr

/-- `QuizStore.createEmpty`: the empty dataset, stamped with the current
time. -/
def createEmpty (now : Int) : QuizDatabase :=
  { quizzes := []
    reviews := []
    spacedRepetition := []
    sessions := []
    sparringSessions := []
    weeklyReports := []
    lastUpdated := now }

/-- `QuizStore.sanitize`: every array field of the raw document is kept if
it is an array and replaced by `[]` otherwise; `lastUpdated` falls back to
the current time. -/
def sanitize (now : Int) (raw : RawQuizDatabase) : QuizDatabase :=
  { quizzes := raw.quizzes.getD []
    reviews := raw.reviews.getD []
    spacedRepetition := raw.spacedRepetition.getD []
    sessions := raw.sessions.getD []
    sparringSessions := raw.sparringSessions.getD []
    weeklyReports := raw.weeklyReports.getD []
    lastUpdated := raw.lastUpdated.getD now }

/-- `QuizStore.load`: a successfully read and parsed document (`some raw`)
is sanitized; a missing file, unreadable file or JSON parse failure
(`none`, the catch branch) degrades to the empty dataset. -/
def loadDatabase (now : Int) (readResult : Option RawQuizDatabase) : QuizDatabase :=
  match readResult with
  | some raw => sanitize now raw
  | none => createEmpty now

/-- Serialization by `JSON.stringify` in `QuizStore.save`: every field of
the in-memory dataset is written, so every field of the resulting document
is present. -/
def serializeDatabase (db : QuizDatabase) : RawQuizDatabase :=
  { quizzes := some db.quizzes
    reviews := some db.reviews
    spacedRepetition := some db.spacedRepetition
    sessions := some db.sessions
    sparringSessions := some db.sparringSessions
    weeklyReports := some db.weeklyReports
    lastUpdated := some db.lastUpdated }

/-- `QuizStore.getQuiz`: first quiz whose id matches, `undefined` when
absent. -/
def getQuiz (db : QuizDatabase) (id : String) : Option QuizItem :=
  db.quizzes.find? (fun q => q.id == id)

/-- `QuizStore.getRecentReviews`: reviews whose timestamp is at least
`now` minus the window, the cutoff comparison `r.reviewedAt >= cutoffStr`
of the source. -/
def getRecentReviews (db : QuizDatabase) (days : Int) (now : Int) : List ReviewRecord :=
  db.reviews.filter (fun r => decide (now - days ≤ r.reviewedAt))

/-- A freshly created scheduling state: stage 0, the given first due date,
all counters zero (the object literal in `QuizStore.getOrCreateSRMeta`). -/
def freshSRMeta (quizId : String) (firstReviewDate : Int) : SpacedRepetitionMeta :=
  { quizId := quizId
    currentStage := 0
    nextReviewDate := firstReviewDate
    consecutiveCorrect := 0
    totalAttempts := 0
    totalCorrect := 0
    lastReviewedAt := none }

/-- `QuizStore.getOrCreateSRMeta`: returns the existing state for the quiz
unchanged when present; otherwise pushes a fresh stage-0 state with the
given due date.  Returns the state together with the updated dataset. -/
def getOrCreateSRMeta (db : QuizDatabase) (quizId : String) (firstReviewDate : Int) :
    SpacedRepetitionMeta × QuizDatabase :=
  match db.spacedRepetition.find? (fun m => m.quizId == quizId) with
  | some meta => (meta, db)
  | none =>
      let meta := freshSRMeta quizId firstReviewDate
      (meta, { db with spacedRepetition := db.spacedRepetition ++ [meta] })

/-- Replacement at the first index whose state matches the quiz id, the
`findIndex` / assignment pair in `QuizStore.updateSRMeta`; the list is
unchanged when no state matches. -/
def replaceSRMeta (metas : List SpacedRepetitionMeta) (quizId : String)
    (updated : SpacedRepetitionMeta) : List SpacedRepetitionMeta :=
  match metas with
  | [] => []
  | m :: rest =>
      if m.quizId == quizId then updated :: rest
      else m :: replaceSRMeta rest quizId updated

/-- `QuizStore.updateSRMeta` applied with a whole updated state (which is
how `processReviewResult` calls it, so the spread merge is a full
replacement); a no-op when the state does not exist. -/
def updateSRMeta (db : QuizDatabase) (quizId : String) (updated : SpacedRepetitionMeta) :
    QuizDatabase :=
  { db with spacedRepetition := replaceSRMeta db.spacedRepetition quizId updated }

/-- `QuizStore.getDueQuizIds`: ids of all states whose next review date
has passed, in the stored order of the states. -/
def getDueQuizIds (db : QuizDatabase) (asOf : Int) : List String :=
  (db.spacedRepetition.filter (fun m => decide (m.nextReviewDate ≤ asOf))).map (fun m => m.quizId)

/-- The interval list chosen by the `SpacedRepetitionEngine` constructor:
`config?.intervals ?? [1, 3, 7, 14, 30]`.  The constructor performs no
validation whatsoever; a present configuration is taken verbatim
(including an empty interval list) and only an absent configuration falls
back to the default. -/
def engineIntervals (config : Option ReviewScheduleConfig) : List Int :=
  match config with
  | some c => c.intervals
  | none => [1, 3, 7, 14, 30]

/-- Indexing `this.intervals[stage]` of the source.  The source only ever
indexes with a stage inside the interval list (see the stage bounds
theorems); out-of-range access, impossible there, is modelled with the
default 0. -/
def intervalAt (intervals : List Int) (stage : Int) : Int :=
  intervals.getD stage.toNat 0

/-- `SpacedRepetitionEngine.initializeForQuiz`: get-or-create the state
with first due date `now + intervals[0]`. -/
def initializeForQuiz (intervals : List Int) (now : Int) (db : QuizDatabase)
    (quizId : String) : SpacedRepetitionMeta × QuizDatabase :=
  getOrCreateSRMeta db quizId (now + intervalAt intervals 0)

/-- The state transition applied to a scheduling state by
`SpacedRepetitionEngine.processReviewResult` (source lines 66 to 88):
bump the attempt counter and stamp the review time; on a correct answer
bump the correct counters and advance the stage by 2 when the incremented
streak has reached 3 and by 1 otherwise, clamped to the last stage; on an
incorrect answer reset the streak and step the stage back, clamped to 0;
finally reschedule at `now` plus the interval of the new stage. -/
def reviewStep (intervals : List Int) (now : Int) (meta : SpacedRepetitionMeta)
    (isCorrect : Bool) : SpacedRepetitionMeta :=
  let m1 : SpacedRepetitionMeta :=
    { meta with totalAttempts := meta.totalAttempts + 1, lastReviewedAt := some now }
  let m2 : SpacedRepetitionMeta :=
    if isCorrect then
      let cc := m1.consecutiveCorrect + 1
      let stageJump : Int := if 3 ≤ cc then 2 else 1
      { m1 with
          totalCorrect := m1.totalCorrect + 1
          consecutiveCorrect := cc
          currentStage := min (m1.currentStage + stageJump) ((intervals.length : Int) - 1) }
    else
      { m1 with
          consecutiveCorrect := 0
          currentStage := max (m1.currentStage - 1) 0 }
  { m2 with nextReviewDate := now + intervalAt intervals m2.currentStage }

/-- `SpacedRepetitionEngine.processReviewResult`: fetch-or-create the
state (first due date `now + intervals[0]`), apply the review transition,
store the updated state, and return it. -/
def processReviewResult (intervals : List Int) (now : Int) (db : QuizDatabase)
    (quizId : String) (isCorrect : Bool) : SpacedRepetitionMeta × QuizDatabase :=
  let fetched := getOrCreateSRMeta db quizId (now + intervalAt intervals 0)
  let updated := reviewStep intervals now fetched.1 isCorrect
  (updated, updateSRMeta fetched.2 quizId updated)

/-- `SpacedRepetitionEngine.getDueQuizzes`: resolve the due ids through
the store and hydrate to quiz items, dropping ids whose quiz record is
missing (the `filter((q): q is QuizItem => q !== undefined)` step). -/
def getDueQuizzes (db : QuizDatabase) (asOf : Int) : List QuizItem :=
  (getDueQuizIds db asOf).filterMap (fun id => getQuiz db id)

/-- Applying a whole sequence of review outcomes to one scheduling state;
each element pairs the outcome with the time the review happens at. -/
def runOutcomes (intervals : List Int) : List (Bool × Int) → SpacedRepetitionMeta → SpacedRepetitionMeta
  | [], meta => meta
  | (b, t) :: rest, meta => runOutcomes intervals rest (reviewStep intervals t meta b)

/-- One entry of the question-archetype table of
`SpacedRepetitionEngine.getReviewType`. -/
structure ReviewType where
  type : String
  promptTemplate : String
  description : String
deriving DecidableEq, Repr

/-- The fixed five-entry archetype table of
`SpacedRepetitionEngine.getReviewType`. -/
def reviewTypes : List ReviewType :=
  [ { type := "recall"
      promptTemplate := "어제 배운 \"{topic}\" 기억나? 핵심 키워드 1개만 말해봐."
      description := "단기 기억 확인 — 핵심 키워드 회상" }
  , { type := "apply"
      promptTemplate := "3일 전에 배운 \"{topic}\"을 지금 당신이 하는 프로젝트에 적용한다면 어떻게 쓸 수 있어?"
      description := "응용 — 실제 상황에 적용" }
  , { type := "integrate"
      promptTemplate := "저번에 배운 \"{topic}\" 개념과 최근 배운 다른 개념의 공통점이 뭐야?"
      description := "통합 — 지식 간 연결" }
  , { type := "critique"
      promptTemplate := "\"{topic}\" 이론의 반박 사례나 예외 상황을 하나 들어봐."
      description := "비판적 사고 — 반례 탐색" }
  , { type := "teach"
      promptTemplate := "\"{topic}\"을 이 분야를 전혀 모르는 사람에게 1분 안에 설명해봐."
      description := "가르치기 — 파인만 기법" } ]

/-- `SpacedRepetitionEngine.getReviewType`: index the table at
`Math.min(stage, types.length - 1)`. -/
def getReviewType (stage : Nat) : ReviewType :=
  reviewTypes.getD (min stage (reviewTypes.length - 1)) { type := "", promptTemplate := "", description := "" }

/-- Shared stage-bound fact: one review step keeps the stage inside
`[0, length - 1]` whenever the interval list is non-empty. -/
theorem reviewStep_stage_bounds (intervals : List Int) (now : Int)
    (meta : SpacedRepetitionMeta) (b : Bool) (hne : intervals ≠ [])
    (h0 : 0 ≤ meta.currentStage)
    (h1 : meta.currentStage ≤ (intervals.length : Int) - 1) :
    0 ≤ (reviewStep intervals now meta b).currentStage ∧
      (reviewStep intervals now meta b).currentStage ≤ (intervals.length : Int) - 1 := by
  have hlen : 1 ≤ (intervals.length : Int) := by
    have : intervals.length ≠ 0 := fun h => hne (List.length_eq_zero.mp h)
    omega
  cases b with
  | false =>
      simp only [reviewStep]
      constructor
      · exact le_max_right _ _
      · apply max_le <;> omega
  | true =>
      simp only [reviewStep]
      by_cases hcc : 3 ≤ meta.consecutiveCorrect + 1 <;>
        simp only [hcc, if_true, if_false, if_pos, if_neg, not_false_iff] <;>
        constructor <;>
        first
          | exact min_le_right _ _
          | · apply le_min <;> omega

/-- Helper: when a scheduling state for the quiz exists, fetch-or-create
returns it and leaves the dataset untouched. -/
theorem getOrCreateSRMeta_of_found (db : QuizDatabase) (quizId : String) (d : Int)
    (meta : SpacedRepetitionMeta)
    (hm : db.spacedRepetition.find? (fun m => m.quizId == quizId) = some meta) :
    getOrCreateSRMeta db quizId d = (meta, db) := by
  simp [getOrCreateSRMeta, hm]

/-- C1.  For every scheduling state and every outcome, `processReviewResult`
performs exactly the specified transition: the attempt counter rises by one
and the last-review stamp becomes now; a correct outcome bumps the correct
and streak counters and advances the stage by 2 exactly when the
incremented streak has reached 3 (so the un-reset streak keeps triggering
2-step jumps) and by 1 otherwise, clamped to the last stage; an incorrect
outcome zeroes the streak and steps the stage back, clamped to 0; in both
cases the next due date is now plus the interval of the new stage, which
stays inside the interval list. -/
theorem c1_processReviewResult (intervals : List Int) (now : Int) (db : QuizDatabase)
    (quizId : String) (b : Bool) (meta : SpacedRepetitionMeta)
    (hm : db.spacedRepetition.find? (fun m => m.quizId == quizId) = some meta)
    (hne : intervals ≠ [])
    (h0 : 0 ≤ meta.currentStage)
    (h1 : meta.currentStage ≤ (intervals.length : Int) - 1) :
    (processReviewResult intervals now db quizId b).1 = reviewStep intervals now meta b ∧
    (processReviewResult intervals now db quizId b).2 =
      updateSRMeta db quizId (reviewStep intervals now meta b) ∧
    (reviewStep intervals now meta b).quizId = meta.quizId ∧
    (reviewStep intervals now meta b).totalAttempts = meta.totalAttempts + 1 ∧
    (reviewStep intervals now meta b).lastReviewedAt = some now ∧
    (b = true →
      (reviewStep intervals now meta b).totalCorrect = meta.totalCorrect + 1 ∧
      (reviewStep intervals now meta b).consecutiveCorrect = meta.consecutiveCorrect + 1 ∧
      (reviewStep intervals now meta b).currentStage =
        min (meta.currentStage + (if 3 ≤ meta.consecutiveCorrect + 1 then 2 else 1))
          ((intervals.length : Int) - 1)) ∧
    (b = true → 3 ≤ meta.consecutiveCorrect →
      (reviewStep intervals now meta b).currentStage =
        min (meta.currentStage + 2) ((intervals.length : Int) - 1)) ∧
    (b = false →
      (reviewStep intervals now meta b).totalCorrect = meta.totalCorrect ∧
      (reviewStep intervals now meta b).consecutiveCorrect = 0 ∧
      (reviewStep intervals now meta b).currentStage = max (meta.currentStage - 1) 0) ∧
    (reviewStep intervals now meta b).nextReviewDate =
      now + intervalAt intervals (reviewStep intervals now meta b).currentStage ∧
    0 ≤ (reviewStep intervals now meta b).currentStage ∧
    (reviewStep intervals now meta b).currentStage ≤ (intervals.length : Int) - 1 := by
  have hfetch : getOrCreateSRMeta db quizId (now + intervalAt intervals 0) = (meta, db) :=
    getOrCreateSRMeta_of_found db quizId _ meta hm
  have hbounds := reviewStep_stage_bounds intervals now meta b hne h0 h1
  refine ⟨?_, ?_, ?_, ?_, ?_, ?_, ?_, ?_, ?_, hbounds.1, hbounds.2⟩
  · simp [processReviewResult, hfetch]
  · simp [processReviewResult, hfetch]
  · cases b <;> simp [reviewStep]
  · cases b <;> simp [reviewStep]
  · cases b <;> simp [reviewStep]
  · rintro rfl
    by_cases hcc : 3 ≤ meta.consecutiveCorrect + 1 <;> simp [reviewStep, hcc]
  · rintro rfl hcc
    have hcc1 : 3 ≤ meta.consecutiveCorrect + 1 := by omega
    simp [reviewStep, hcc1]
  · rintro rfl
    simp [reviewStep]
  · cases b <;> simp [reviewStep]

/-- Concrete scheduling state used to instantiate the C1 and C2
theorems. -/
def metaW : SpacedRepetitionMeta := freshSRMeta "q1" 1

/-- Concrete dataset holding `metaW`, used to instantiate the C1
theorem. -/
def dbW : QuizDatabase :=
  { createEmpty 0 with spacedRepetition := [metaW] }

/-- Witness for C1 at a concrete input: one quiz at stage 0 with a correct
answer at time 10. -/
theorem c1_processReviewResult_witness :
    (processReviewResult [1, 3, 7, 14, 30] 10 dbW "q1" true).1 =
      reviewStep [1, 3, 7, 14, 30] 10 metaW true ∧
    (reviewStep [1, 3, 7, 14, 30] 10 metaW true).currentStage ≤ (5 : Int) - 1 :=
  ⟨(c1_processReviewResult [1, 3, 7, 14, 30] 10 dbW "q1" true metaW (by decide) (by decide)
      (by decide) (by decide)).1,
    (c1_processReviewResult [1, 3, 7, 14, 30] 10 dbW "q1" true metaW (by decide) (by decide)
      (by decide) (by decide)).2.2.2.2.2.2.2.2.2.2⟩

/-- C2.  The stage bound `0 ≤ stage ≤ length - 1` is an invariant: from
any in-range state over a non-empty interval list, no sequence of review
outcomes whatsoever can drive the stage out of range. -/
theorem c2_stage_bounds_invariant (intervals : List Int) (outcomes : List (Bool × Int))
    (meta : SpacedRepetitionMeta) (hne : intervals ≠ [])
    (h0 : 0 ≤ meta.currentStage)
    (h1 : meta.currentStage ≤ (intervals.length : Int) - 1) :
    0 ≤ (runOutcomes intervals outcomes meta).currentStage ∧
      (runOutcomes intervals outcomes meta).currentStage ≤ (intervals.length : Int) - 1 := by
  induction outcomes generalizing meta with
  | nil => exact ⟨h0, h1⟩
  | cons o rest ih =>
      obtain ⟨b, t⟩ := o
      have hb := reviewStep_stage_bounds intervals t meta b hne h0 h1
      exact ih (reviewStep intervals t meta b) hb.1 hb.2

/-- Witness for C2 at a concrete input: five outcomes against the default
interval list starting from stage 0. -/
theorem c2_stage_bounds_invariant_witness :
    0 ≤ (runOutcomes [1, 3, 7, 14, 30]
        [(true, 1), (true, 2), (true, 3), (false, 4), (true, 5)] metaW).currentStage ∧
      (runOutcomes [1, 3, 7, 14, 30]
        [(true, 1), (true, 2), (true, 3), (false, 4), (true, 5)] metaW).currentStage ≤
        ((5 : Nat) : Int) - 1 :=
  c2_stage_bounds_invariant [1, 3, 7, 14, 30]
    [(true, 1), (true, 2), (true, 3), (false, 4), (true, 5)] metaW
    (by decide) (by decide) (by decide)

/-- The quiz of the C3 walkthrough scenario. -/
def quizC3 : QuizItem :=
  { id := "q1", topic := "T", question := "Q", expectedAnswer := "A"
    difficulty := 2, tags := [], createdAt := 0, sourceFile := none }

/-- The dataset of the C3 walkthrough scenario before initialization. -/
def dbC3 : QuizDatabase := { createEmpty 0 with quizzes := [quizC3] }

/-- Scenario step: the item is initialized at time 0. -/
def c3run0 : SpacedRepetitionMeta × QuizDatabase :=
  initializeForQuiz [1, 3, 7, 14, 30] 0 dbC3 "q1"

/-- Scenario step: the review at day 1 fails. -/
def c3run1 : SpacedRepetitionMeta × QuizDatabase :=
  processReviewResult [1, 3, 7, 14, 30] 1 c3run0.2 "q1" false

/-- Scenario step: the review at day 2 passes. -/
def c3run2 : SpacedRepetitionMeta × QuizDatabase :=
  processReviewResult [1, 3, 7, 14, 30] 2 c3run1.2 "q1" true

/-- Scenario step: the review at day 5 passes. -/
def c3run3 : SpacedRepetitionMeta × QuizDatabase :=
  processReviewResult [1, 3, 7, 14, 30] 5 c3run2.2 "q1" true

/-- Scenario step: the review at day 12 passes, the third consecutive
pass. -/
def c3run4 : SpacedRepetitionMeta × QuizDatabase :=
  processReviewResult [1, 3, 7, 14, 30] 12 c3run3.2 "q1" true

/-- C3, counterexample.  The claimed end state of the walkthrough is wrong
on the code: after the third consecutive pass the stage is not 3 and the
item is not due 14 days after that review (day 26).  The third pass
increments the streak to 3 first, so the 2-step jump applies already to
this pass, carrying the stage from 2 to 4. -/
theorem c3_scenario_counterexample :
    ¬ (c3run4.1.currentStage = 3 ∧ c3run4.1.nextReviewDate = 12 + 14) := by
  decide

/-- C3, amended.  The walkthrough holds up to its last step, whose result
is stage 4 with the item due 30 days later: a new item at day 0 starts at
stage 0 due day 1; the failed review at day 1 keeps stage 0 and makes it
due day 2; the first pass moves to stage 1 (streak 1) and schedules 3 days
out; the second pass moves to stage 2 (streak 2) and schedules 7 days out;
the third consecutive pass reaches streak 3, jumps 2 stages from 2 to 4,
and schedules 30 days out. -/
theorem c3_scenario_amended :
    c3run0.1.currentStage = 0 ∧ c3run0.1.nextReviewDate = 0 + 1 ∧
    c3run1.1.currentStage = 0 ∧ c3run1.1.nextReviewDate = 1 + 1 ∧
      c3run1.1.consecutiveCorrect = 0 ∧
    c3run2.1.currentStage = 1 ∧ c3run2.1.nextReviewDate = 2 + 3 ∧
      c3run2.1.consecutiveCorrect = 1 ∧
    c3run3.1.currentStage = 2 ∧ c3run3.1.nextReviewDate = 5 + 7 ∧
      c3run3.1.consecutiveCorrect = 2 ∧
    c3run4.1.currentStage = 4 ∧ c3run4.1.nextReviewDate = 12 + 30 ∧
      c3run4.1.consecutiveCorrect = 3 := by
  decide

/-- A configuration whose interval list is empty, as the spec says the
constructor must reject. -/
def emptyIntervalConfig : ReviewScheduleConfig :=
  { intervals := []
    morningCron := "0 8 * * *"
    eveningCron := "0 21 * * *"
    weeklyReportCron := "0 10 * * 0" }

/-- C4, counterexample.  The constructor performs no validation at all: it
is a total function that accepts the empty interval list verbatim, so no
validation error is raised and a successfully constructed engine can hold
an empty interval list, contradicting the claimed fail-fast check.  (The
`loadConfig` entry point performs no such check either: it parses
`REVIEW_INTERVALS` and passes the result straight through.) -/
theorem c4_constructor_counterexample :
    engineIntervals (some emptyIntervalConfig) = [] := rfl

/-- C4, amended.  The constructor accepts every configuration verbatim —
the interval list of the engine is exactly the configured list, empty or
not — and only an absent configuration falls back to the non-empty default
`[1, 3, 7, 14, 30]`. -/
theorem c4_constructor_amended :
    (∀ c : ReviewScheduleConfig, engineIntervals (some c) = c.intervals) ∧
    engineIntervals none = [1, 3, 7, 14, 30] ∧
    ([1, 3, 7, 14, 30] : List Int) ≠ [] :=
  ⟨fun _ => rfl, rfl, by decide⟩

/-- Helper: composing a filter with a filterMap into one filterMap. -/
theorem filterMap_filter_eq {α β : Type} (p : α → Bool) (f : α → Option β) (l : List α) :
    (l.filter p).filterMap f = l.filterMap (fun a => if p a then f a else none) := by
  induction l with
  | nil => rfl
  | cons x xs ih =>
      by_cases hx : p x <;> simp [List.filter_cons, List.filterMap_cons, hx, ih]

/-- Helper: when the projections of a list are distinct, searching for the
projection of a member finds exactly that member. -/
theorem find?_proj_self {α β : Type} [DecidableEq β] (f : α → β) (l : List α) (a : α)
    (hnd : (l.map f).Nodup) (ha : a ∈ l) :
    l.find? (fun x => f x == f a) = some a := by
  induction l with
  | nil => simp at ha
  | cons b bs ih =>
      rcases List.mem_cons.mp ha with rfl | hmem
      · simp [List.find?_cons]
      · have hnd' : (bs.map f).Nodup := (List.nodup_cons.mp hnd).2
        have hfb : f b ∉ bs.map f := (List.nodup_cons.mp hnd).1
        have hne : (f b == f a) = false := by
          simp only [beq_eq_false_iff_ne, ne_eq]
          intro hEq
          exact hfb (hEq ▸ List.mem_map_of_mem f hmem)
        simp [List.find?_cons, hne, ih hnd' hmem]

/-- C5.  Due-set correctness of `getDueQuizzes`: the result is exactly the
scheduling-state list restricted to due states and hydrated in place — so
it keeps the repository-native order of the states and silently drops due
ids with no quiz record — every returned quiz is a real record of the
store, and (for stores whose quiz ids are distinct) a stored item appears
in the due set exactly when it has a scheduling state whose next due date
is at most `asOf`. -/
theorem c5_getDueQuizzes (db : QuizDatabase) (asOf : Int) :
    getDueQuizzes db asOf =
      db.spacedRepetition.filterMap
        (fun m => if m.nextReviewDate ≤ asOf then getQuiz db m.quizId else none) ∧
    (∀ q ∈ getDueQuizzes db asOf, q ∈ db.quizzes) ∧
    (∀ q : QuizItem, (db.quizzes.map QuizItem.id).Nodup → q ∈ db.quizzes →
      (q ∈ getDueQuizzes db asOf ↔
        ∃ m ∈ db.spacedRepetition, m.quizId = q.id ∧ m.nextReviewDate ≤ asOf)) := by
  have hchar : getDueQuizzes db asOf =
      db.spacedRepetition.filterMap
        (fun m => if m.nextReviewDate ≤ asOf then getQuiz db m.quizId else none) := by
    unfold getDueQuizzes getDueQuizIds
    rw [List.filterMap_map, filterMap_filter_eq]
    simp [Function.comp]
  refine ⟨hchar, ?_, ?_⟩
  · intro q hq
    rw [hchar] at hq
    obtain ⟨m, _, hm⟩ := List.mem_filterMap.mp hq
    by_cases hdue : m.nextReviewDate ≤ asOf
    · simp only [hdue, if_pos] at hm
      exact List.mem_of_find?_eq_some hm
    · simp [hdue] at hm
  · intro q hnd hq
    rw [hchar]
    constructor
    · intro hmem
      obtain ⟨m, hmsr, hm⟩ := List.mem_filterMap.mp hmem
      by_cases hdue : m.nextReviewDate ≤ asOf
      · simp only [hdue, if_pos] at hm
        have hpred := List.find?_some hm
        have hid : q.id = m.quizId := by simpa using hpred
        exact ⟨m, hmsr, hid.symm, hdue⟩
      · simp [hdue] at hm
    · rintro ⟨m, hmsr, hid, hdue⟩
      refine List.mem_filterMap.mpr ⟨m, hmsr, ?_⟩
      have hfind : getQuiz db m.quizId = some q := by
        unfold getQuiz
        rw [hid]
        exact find?_proj_self QuizItem.id db.quizzes q hnd hq
      simp [hdue, hfind]

/-- The dataset used to instantiate the C5 theorem: one quiz with a due
scheduling state. -/
def dbC5 : QuizDatabase :=
  { createEmpty 0 with quizzes := [quizC3], spacedRepetition := [freshSRMeta "q1" 3] }

/-- Witness for C5 at a concrete input: the single quiz is due at day 3
because its state is due then. -/
theorem c5_getDueQuizzes_witness :
    quizC3 ∈ getDueQuizzes dbC5 3 ↔
      ∃ m ∈ dbC5.spacedRepetition, m.quizId = quizC3.id ∧ m.nextReviewDate ≤ 3 :=
  (c5_getDueQuizzes dbC5 3).2.2 quizC3 (by decide) (by decide)

/-- C6.  The archetype lookup is a pure function of the stage: stages 0 to
4 return, in order, the recall, apply, integrate, critique and teach
entries of the fixed table, and every stage at least 5 clamps to the last
(teach) entry. -/
theorem c6_getReviewType :
    getReviewType 0 = ⟨"recall",
      "어제 배운 \"{topic}\" 기억나? 핵심 키워드 1개만 말해봐.",
      "단기 기억 확인 — 핵심 키워드 회상"⟩ ∧
    getReviewType 1 = ⟨"apply",
      "3일 전에 배운 \"{topic}\"을 지금 당신이 하는 프로젝트에 적용한다면 어떻게 쓸 수 있어?",
      "응용 — 실제 상황에 적용"⟩ ∧
    getReviewType 2 = ⟨"integrate",
      "저번에 배운 \"{topic}\" 개념과 최근 배운 다른 개념의 공통점이 뭐야?",
      "통합 — 지식 간 연결"⟩ ∧
    getReviewType 3 = ⟨"critique",
      "\"{topic}\" 이론의 반박 사례나 예외 상황을 하나 들어봐.",
      "비판적 사고 — 반례 탐색"⟩ ∧
    getReviewType 4 = ⟨"teach",
      "\"{topic}\"을 이 분야를 전혀 모르는 사람에게 1분 안에 설명해봐.",
      "가르치기 — 파인만 기법"⟩ ∧
    (∀ stage : Nat, 5 ≤ stage → getReviewType stage = getReviewType 4) := by
  refine ⟨rfl, rfl, rfl, rfl, rfl, ?_⟩
  intro stage hstage
  unfold getReviewType
  have hmin : min stage (reviewTypes.length - 1) = 4 := by
    simp only [reviewTypes, List.length]
    omega
  rw [hmin]
  rfl

/-- Witness for C6 at a concrete input: stage 9 clamps to the teach
entry. -/
theorem c6_getReviewType_witness : getReviewType 9 = getReviewType 4 :=
  c6_getReviewType.2.2.2.2.2 9 (by decide)

/-- C7.  Robust loading and lossless round trip: a parsed document whose
top-level array fields are missing (or malformed) loads with those fields
as empty arrays without any error, serializing a dataset and loading it
back returns it unchanged, and a failed read degrades to the empty
dataset. -/
theorem c7_load_roundtrip (now : Int) (raw : RawQuizDatabase) (db : QuizDatabase) :
    (raw.quizzes = none → (loadDatabase now (some raw)).quizzes = []) ∧
    (raw.reviews = none → (loadDatabase now (some raw)).reviews = []) ∧
    (raw.spacedRepetition = none → (loadDatabase now (some raw)).spacedRepetition = []) ∧
    (raw.sessions = none → (loadDatabase now (some raw)).sessions = []) ∧
    (raw.sparringSessions = none → (loadDatabase now (some raw)).sparringSessions = []) ∧
    (raw.weeklyReports = none → (loadDatabase now (some raw)).weeklyReports = []) ∧
    loadDatabase now (some (serializeDatabase db)) = db ∧
    loadDatabase now none = createEmpty now := by
  refine ⟨?_, ?_, ?_, ?_, ?_, ?_, ?_, rfl⟩
  · intro h; simp [loadDatabase, sanitize, h]
  · intro h; simp [loadDatabase, sanitize, h]
  · intro h; simp [loadDatabase, sanitize, h]
  · intro h; simp [loadDatabase, sanitize, h]
  · intro h; simp [loadDatabase, sanitize, h]
  · intro h; simp [loadDatabase, sanitize, h]
  · rfl

/-- A raw document with every top-level field missing, used to instantiate
the C7 theorem. -/
def rawAllMissing : RawQuizDatabase :=
  { quizzes := none, reviews := none, spacedRepetition := none, sessions := none
    sparringSessions := none, weeklyReports := none, lastUpdated := none }

/-- Witness for C7 at a concrete input: the all-missing document loads
with an empty quiz array, and the scenario dataset round-trips. -/
theorem c7_load_roundtrip_witness :
    (loadDatabase 5 (some rawAllMissing)).quizzes = [] ∧
    loadDatabase 5 (some (serializeDatabase dbC5)) = dbC5 :=
  ⟨(c7_load_roundtrip 5 rawAllMissing dbC5).1 rfl,
    (c7_load_roundtrip 5 rawAllMissing dbC5).2.2.2.2.2.2.1⟩

/-- C8.  `getOrCreateSRMeta` is idempotent: an existing state is returned
unchanged with the dataset untouched (the requested first due date is
ignored), a missing state is created at stage 0 with the given due date
and zeroed counters, a repeated call (with any due date) returns the same
state and dataset, and `initializeForQuiz` on an item that already has a
state returns that state unchanged. -/
theorem c8_getOrCreateSRMeta (db : QuizDatabase) (q : String) (d d' : Int)
    (intervals : List Int) (now : Int) :
    (∀ m : SpacedRepetitionMeta,
      db.spacedRepetition.find? (fun x => x.quizId == q) = some m →
        getOrCreateSRMeta db q d = (m, db) ∧ initializeForQuiz intervals now db q = (m, db)) ∧
    (db.spacedRepetition.find? (fun x => x.quizId == q) = none →
      getOrCreateSRMeta db q d =
        (freshSRMeta q d,
          { db with spacedRepetition := db.spacedRepetition ++ [freshSRMeta q d] })) ∧
    getOrCreateSRMeta (getOrCreateSRMeta db q d).2 q d' =
      ((getOrCreateSRMeta db q d).1, (getOrCreateSRMeta db q d).2) := by
  refine ⟨?_, ?_, ?_⟩
  · intro m hm
    exact ⟨getOrCreateSRMeta_of_found db q d m hm,
      getOrCreateSRMeta_of_found db q _ m hm⟩
  · intro hnone
    simp [getOrCreateSRMeta, hnone]
  · cases hfind : db.spacedRepetition.find? (fun x => x.quizId == q) with
    | some m =>
        rw [getOrCreateSRMeta_of_found db q d m hfind]
        exact getOrCreateSRMeta_of_found db q d' m hfind
    | none =>
        have hfirst : getOrCreateSRMeta db q d =
            (freshSRMeta q d,
              { db with spacedRepetition := db.spacedRepetition ++ [freshSRMeta q d] }) := by
          simp [getOrCreateSRMeta, hfind]
        rw [hfirst]
        apply getOrCreateSRMeta_of_found
        simp [List.find?_append, hfind, freshSRMeta]

/-- Witness for C8 at a concrete input: the state of `dbW` is returned
unchanged by both the store call and the engine initialization. -/
theorem c8_getOrCreateSRMeta_witness :
    getOrCreateSRMeta dbW "q1" 99 = (metaW, dbW) ∧
    initializeForQuiz [1, 3, 7, 14, 30] 0 dbW "q1" = (metaW, dbW) :=
  (c8_getOrCreateSRMeta dbW "q1" 99 77 [1, 3, 7, 14, 30] 0).1 metaW (by decide)

/-- `QuizStore.getRecentSessions`: `sessions.slice(-count)`, the last
`count` sessions. -/
def getRecentSessions (db : QuizDatabase) (count : Nat) : List StudySession :=
  db.sessions.drop (db.sessions.length - count)

/-- One `failureMap.set` step of `CentaurTutor.generateWeeklyReport`,
with JavaScript `Map` semantics: an existing key keeps its position and is
incremented, a new key is appended. -/
def bumpFail (acc : List (String × Nat)) (q : String) : List (String × Nat) :=
  if acc.any (fun p => p.1 == q) then
    acc.map (fun p => if p.1 == q then (p.1, p.2 + 1) else p)
  else acc ++ [(q, 1)]

/-- The failure-count map built by the loop of
`CentaurTutor.generateWeeklyReport`: fail results bump their quiz id, all
other results are skipped. -/
def tallyFails (reviews : List ReviewRecord) : List (String × Nat) :=
  reviews.foldl
    (fun acc r => if r.result == ReviewResult.fail then bumpFail acc r.quizId else acc) []

/-- The quiz ids of the failing reviews, in review order. -/
def failSeq (reviews : List ReviewRecord) : List String :=
  (reviews.filter (fun r => r.result == ReviewResult.fail)).map (fun r => r.quizId)

/-- One insertion step of a stable descending sort on the count: the new
entry goes in front of the first entry whose count is at most its own, so
earlier entries win ties. -/
def insertByCountDesc (x : String × Nat) : List (String × Nat) → List (String × Nat)
  | [] => [x]
  | y :: ys => if y.2 ≤ x.2 then x :: y :: ys else y :: insertByCountDesc x ys

/-- Stable descending sort on the count.  This models
`Array.prototype.sort` with the comparator `(a, b) => b[1] - a[1]` of
`generateWeeklyReport`: ECMAScript guarantees the sort is stable, and a
stable sort by a fixed preorder has a unique result, so this insertion
sort is extensionally that sort. -/
def sortByCountDesc : List (String × Nat) → List (String × Nat)
  | [] => []
  | x :: l => insertByCountDesc x (sortByCountDesc l)

/-- The map from a failure-count entry to a `WeaknessItem` in
`generateWeeklyReport`: the topic falls back to the unknown-topic string
and the suggestion embeds the topic (falling back to the empty string)
into the fixed template. -/
def toWeaknessItem (db : QuizDatabase) (entry : String × Nat) : WeaknessItem :=
  { quizId := entry.1
    topic := ((getQuiz db entry.1).map (fun q => q.topic)).getD "알 수 없음"
    failCount := entry.2
    sampleWrongAnswer := none
    suggestion := "\"" ++ ((getQuiz db entry.1).map (fun q => q.topic)).getD "" ++
      "\" 주제를 다시 학습하고 /spar 로 스파링해보세요." }

/-- `CentaurTutor.generateRecommendations`: one rate-bucket message, a
call-out naming the worst weakness when any exists, and a volume nudge
when fewer than three topics were studied. -/
def generateRecommendations (correctRate : ℚ) (weaknesses : List WeaknessItem)
    (topicsStudied : Nat) : List String :=
  (if correctRate < 50 then
    ["정답률이 50% 미만입니다. 기초 개념을 다시 복습하고, 난이도를 한 단계 낮춰보세요. (/level beginner)"]
  else if correctRate < 75 then
    ["정답률이 양호합니다. 약점 주제에 집중하여 스파링을 진행해보세요."]
  else
    ["정답률이 우수합니다! 난이도를 높여 더 깊은 질문에 도전해보세요. (/level advanced)"]) ++
  (match weaknesses with
   | [] => []
   | w :: _ => ["취약 주제 \"" ++ w.topic ++ "\"에 대해 /spar 스파링을 추천합니다."]) ++
  (if topicsStudied < 3 then
    ["이번 주 학습량이 적습니다. 하루에 하나의 개념이라도 /study 해보세요."]
  else [])

/-- `CentaurTutor.generateWeeklyReport`: statistics over the 7-day review
window, distinct topics of the recent sessions started in the window, the
failure ranking (tally, stable descending sort, top 5, weakness mapping)
and the rule-based recommendations. -/
def generateWeeklyReport (db : QuizDatabase) (now : Int) : WeeklyReport :=
  let recentReviews := getRecentReviews db 7 now
  let totalReviews := recentReviews.length
  let correctCount := (recentReviews.filter (fun r => r.result == ReviewResult.pass)).length
  let correctRate : ℚ :=
    if 0 < totalReviews then ((correctCount : ℚ) / (totalReviews : ℚ)) * 100 else 0
  let recentSessions := (getRecentSessions db 100).filter (fun s => decide (now - 7 ≤ s.startedAt))
  let topicsStudied := (recentSessions.map (fun s => s.topic)).dedup.length
  let topWeaknesses := ((sortByCountDesc (tallyFails recentReviews)).take 5).map (toWeaknessItem db)
  { periodStart := now - 7
    periodEnd := now
    generatedAt := now
    totalReviews := totalReviews
    correctRate := correctRate
    topicsStudied := topicsStudied
    topWeaknesses := topWeaknesses
    recommendations := generateRecommendations correctRate topWeaknesses topicsStudied }

/-- First occurrences of a list of ids, skipping ids already seen. -/
def dedupKeepFirstAux (seen : List String) : List String → List String
  | [] => []
  | q :: qs => if q ∈ seen then dedupKeepFirstAux seen qs else q :: dedupKeepFirstAux (q :: seen) qs

/-- The distinct ids of a list in first-occurrence order. -/
def dedupKeepFirst (qs : List String) : List String :=
  dedupKeepFirstAux [] qs

/-- Helper: the membership test of `bumpFail` checks the key set. -/
theorem bumpFail_mem_iff (acc : List (String × Nat)) (q : String) :
    (acc.any (fun p => p.1 == q) = true) ↔ q ∈ acc.map Prod.fst := by
  simp [List.any_eq_true, beq_iff_eq, List.mem_map]

/-- Helper: bumping an existing key keeps the key list unchanged. -/
theorem bumpFail_keys_of_mem (acc : List (String × Nat)) (q : String)
    (h : q ∈ acc.map Prod.fst) :
    (bumpFail acc q).map Prod.fst = acc.map Prod.fst := by
  unfold bumpFail
  rw [if_pos ((bumpFail_mem_iff acc q).mpr h), List.map_map]
  apply List.map_congr_left
  intro p _
  by_cases hpq : p.1 = q <;> simp [hpq]

/-- Helper: bumping a new key appends it with count 1. -/
theorem bumpFail_of_not_mem (acc : List (String × Nat)) (q : String)
    (h : q ∉ acc.map Prod.fst) :
    bumpFail acc q = acc ++ [(q, 1)] := by
  unfold bumpFail
  rw [if_neg (fun hc => h ((bumpFail_mem_iff acc q).mp hc))]

/-- Helper: bumping preserves distinctness of the keys. -/
theorem bumpFail_keys_nodup (acc : List (String × Nat)) (q : String)
    (h : (acc.map Prod.fst).Nodup) :
    ((bumpFail acc q).map Prod.fst).Nodup := by
  by_cases hq : q ∈ acc.map Prod.fst
  · rw [bumpFail_keys_of_mem acc q hq]; exact h
  · rw [bumpFail_of_not_mem acc q hq]
    simp [List.nodup_append, h, hq]

/-- Helper: the first-occurrence list only depends on the seen set through
membership. -/
theorem dedupKeepFirstAux_congr (qs : List String) : ∀ seen seen' : List String,
    (∀ x, x ∈ seen ↔ x ∈ seen') → dedupKeepFirstAux seen qs = dedupKeepFirstAux seen' qs := by
  induction qs with
  | nil => intro seen seen' _; rfl
  | cons q qs ih =>
      intro seen seen' h
      by_cases hq : q ∈ seen
      · simp only [dedupKeepFirstAux, if_pos hq, if_pos ((h q).mp hq)]
        exact ih seen seen' h
      · have hq' : q ∉ seen' := fun hc => hq ((h q).mpr hc)
        simp only [dedupKeepFirstAux, if_neg hq, if_neg hq']
        rw [ih (q :: seen) (q :: seen') (fun x => by simp [h x])]

/-- Helper: the keys of the failure map are the seen keys followed by the
first occurrences of the remaining ids. -/
theorem foldl_bumpFail_keys (qs : List String) : ∀ acc : List (String × Nat),
    (qs.foldl bumpFail acc).map Prod.fst =
      acc.map Prod.fst ++ dedupKeepFirstAux (acc.map Prod.fst) qs := by
  induction qs with
  | nil => intro acc; simp [dedupKeepFirstAux]
  | cons q qs ih =>
      intro acc
      rw [List.foldl_cons]
      by_cases hq : q ∈ acc.map Prod.fst
      · rw [ih (bumpFail acc q), bumpFail_keys_of_mem acc q hq]
        simp only [dedupKeepFirstAux, if_pos hq]
      · rw [ih (bumpFail acc q), bumpFail_of_not_mem acc q hq]
        simp only [List.map_append, List.map_cons, List.map_nil, dedupKeepFirstAux, if_neg hq]
        rw [List.append_assoc, List.singleton_append]
        congr 2
        exact dedupKeepFirstAux_congr qs _ _ (fun x => by simp [or_comm])

/-- The count stored for a key in the failure map, 0 when absent. -/
def lookupCount (acc : List (String × Nat)) (q : String) : Nat :=
  match acc.find? (fun p => p.1 == q) with
  | some p => p.2
  | none => 0

/-- Helper: one bump raises exactly the bumped key by one. -/
theorem lookupCount_bumpFail (acc : List (String × Nat)) (q x : String) :
    lookupCount (bumpFail acc q) x = lookupCount acc x + (if x = q then 1 else 0) := by
  by_cases hq : q ∈ acc.map Prod.fst
  · have hif : ∀ p : String × Nat,
        ((if p.1 == q then (p.1, p.2 + 1) else p).1 == x) = (p.1 == x) := by
      intro p; by_cases hpq : p.1 == q <;> simp [hpq]
    unfold bumpFail
    rw [if_pos ((bumpFail_mem_iff acc q).mpr hq)]
    unfold lookupCount
    rw [List.find?_map]
    have hpred : ((fun p : String × Nat => p.1 == x) ∘
        (fun p : String × Nat => if p.1 == q then (p.1, p.2 + 1) else p)) =
        (fun p : String × Nat => p.1 == x) := by
      funext p; simpa using hif p
    rw [hpred]
    cases hfind : acc.find? (fun p => p.1 == x) with
    | none =>
        have hxq : ¬ x = q := by
          rintro rfl
          obtain ⟨p, hp, hpx⟩ := List.mem_map.mp hq
          have := List.find?_eq_none.mp hfind p hp
          simp [hpx] at this
        simp [hxq]
    | some r =>
        have hrx : r.1 = x := by simpa using List.find?_some hfind
        by_cases hxq : x = q
        · subst hxq
          simp [hrx]
        · simp [hrx, hxq]
  · rw [bumpFail_of_not_mem acc q hq]
    unfold lookupCount
    rw [List.find?_append]
    cases hfind : acc.find? (fun p => p.1 == x) with
    | some r =>
        have hrx : r.1 = x := by simpa using List.find?_some hfind
        have hxq : ¬ x = q := by
          rintro rfl
          exact hq (hrx ▸ List.mem_map_of_mem Prod.fst (List.mem_of_find?_eq_some hfind))
        simp [hxq]
    | none =>
        by_cases hxq : x = q
        · subst hxq
          simp [List.find?_cons]
        · have hqx : ¬ q = x := fun h => hxq h.symm
          simp [List.find?_cons, hqx, hxq]

/-- Helper: every entry of the failure map holds its start count plus the
number of occurrences of its key. -/
theorem foldl_bumpFail_val (qs : List String) : ∀ acc : List (String × Nat),
    (acc.map Prod.fst).Nodup →
    ∀ p ∈ qs.foldl bumpFail acc, p.2 = lookupCount acc p.1 + qs.count p.1 := by
  induction qs with
  | nil =>
      intro acc hnd p hp
      simp only [List.foldl_nil] at hp
      have hfind : acc.find? (fun r => r.1 == p.1) = some p :=
        find?_proj_self Prod.fst acc p hnd hp
      simp [lookupCount, hfind]
  | cons q qs ih =>
      intro acc hnd p hp
      rw [List.foldl_cons] at hp
      have h2 := ih (bumpFail acc q) (bumpFail_keys_nodup acc q hnd) p hp
      rw [lookupCount_bumpFail] at h2
      rw [h2, List.count_cons]
      by_cases hx : p.1 = q
      · simp [hx]
        omega
      · have hqx : ¬ q = p.1 := fun h => hx h.symm
        simp [hx, hqx]

/-- Helper: the review fold of `generateWeeklyReport` is the fold of
`bumpFail` over the failing quiz ids. -/
theorem tallyFails_eq_foldl_aux (reviews : List ReviewRecord) : ∀ acc : List (String × Nat),
    reviews.foldl
        (fun acc r => if r.result == ReviewResult.fail then bumpFail acc r.quizId else acc) acc =
      (failSeq reviews).foldl bumpFail acc := by
  induction reviews with
  | nil => intro acc; rfl
  | cons r rs ih =>
      intro acc
      rw [List.foldl_cons]
      by_cases hr : r.result == ReviewResult.fail
      · rw [if_pos hr]
        have hseq : failSeq (r :: rs) = r.quizId :: failSeq rs := by
          simp [failSeq, List.filter_cons, hr]
        rw [hseq, List.foldl_cons]
        exact ih (bumpFail acc r.quizId)
      · rw [if_neg hr]
        have hseq : failSeq (r :: rs) = failSeq rs := by
          simp [failSeq, List.filter_cons, hr]
        rw [hseq]
        exact ih acc

/-- Helper: the failure tally is the `bumpFail` fold over the failing
ids. -/
theorem tallyFails_eq_foldl (reviews : List ReviewRecord) :
    tallyFails reviews = (failSeq reviews).foldl bumpFail [] :=
  tallyFails_eq_foldl_aux reviews []

/-- Helper: the keys of the failure tally are the failing ids in
first-fail order. -/
theorem tallyFails_keys (reviews : List ReviewRecord) :
    (tallyFails reviews).map Prod.fst = dedupKeepFirst (failSeq reviews) := by
  rw [tallyFails_eq_foldl, foldl_bumpFail_keys]
  simp [dedupKeepFirst]

/-- Helper: every entry of the failure tally counts the fails of its
key. -/
theorem tallyFails_val (reviews : List ReviewRecord) :
    ∀ p ∈ tallyFails reviews, p.2 = (failSeq reviews).count p.1 := by
  intro p hp
  rw [tallyFails_eq_foldl] at hp
  have := foldl_bumpFail_val (failSeq reviews) [] (by simp) p hp
  simpa [lookupCount] using this

/-- Helper: inserting keeps the list a permutation. -/
theorem insertByCountDesc_perm (x : String × Nat) (l : List (String × Nat)) :
    (insertByCountDesc x l).Perm (x :: l) := by
  induction l with
  | nil => simp [insertByCountDesc]
  | cons y ys ih =>
      by_cases h : y.2 ≤ x.2
      · simp [insertByCountDesc, h]
      · simp only [insertByCountDesc, if_neg h]
        exact (ih.cons y).trans (List.Perm.swap x y ys)

/-- Helper: the stable sort is a permutation. -/
theorem sortByCountDesc_perm (l : List (String × Nat)) :
    (sortByCountDesc l).Perm l := by
  induction l with
  | nil => simp [sortByCountDesc]
  | cons x l ih =>
      exact (insertByCountDesc_perm x (sortByCountDesc l)).trans (ih.cons x)

/-- Helper: inserting preserves descending order on the counts. -/
theorem insertByCountDesc_sorted (x : String × Nat) (l : List (String × Nat))
    (h : List.Sorted (fun a b : String × Nat => b.2 ≤ a.2) l) :
    List.Sorted (fun a b : String × Nat => b.2 ≤ a.2) (insertByCountDesc x l) := by
  induction l with
  | nil => simp [insertByCountDesc]
  | cons y ys ih =>
      rw [List.sorted_cons] at h
      by_cases hxy : y.2 ≤ x.2
      · simp only [insertByCountDesc, if_pos hxy]
        rw [List.sorted_cons]
        refine ⟨?_, List.sorted_cons.mpr h⟩
        intro b hb
        rcases List.mem_cons.mp hb with rfl | hb'
        · exact hxy
        · exact le_trans (h.1 b hb') hxy
      · simp only [insertByCountDesc, if_neg hxy]
        rw [List.sorted_cons]
        refine ⟨?_, ih h.2⟩
        intro b hb
        have hb2 : b ∈ x :: ys := (insertByCountDesc_perm x ys).mem_iff.mp hb
        rcases List.mem_cons.mp hb2 with rfl | hb'
        · omega
        · exact h.1 b hb'

/-- Helper: the stable sort is descending on the counts. -/
theorem sortByCountDesc_sorted (l : List (String × Nat)) :
    List.Sorted (fun a b : String × Nat => b.2 ≤ a.2) (sortByCountDesc l) := by
  induction l with
  | nil => simp [sortByCountDesc]
  | cons x l ih => exact insertByCountDesc_sorted x (sortByCountDesc l) ih

/-- Helper: inserting interacts with a fixed-count filter by prepending
the new entry exactly to its own count class. -/
theorem insertByCountDesc_filter (x : String × Nat) (l : List (String × Nat)) (c : Nat) :
    (insertByCountDesc x l).filter (fun p => p.2 == c) =
      if x.2 = c then x :: l.filter (fun p => p.2 == c)
      else l.filter (fun p => p.2 == c) := by
  induction l with
  | nil => by_cases hx : x.2 = c <;> simp [insertByCountDesc, hx]
  | cons y ys ih =>
      by_cases hxy : y.2 ≤ x.2
      · simp only [insertByCountDesc, if_pos hxy, List.filter_cons]
        by_cases hx : x.2 = c <;> by_cases hy : y.2 = c <;> simp [hx, hy]
      · simp only [insertByCountDesc, if_neg hxy, List.filter_cons]
        by_cases hy : y.2 = c
        · have hx : ¬ x.2 = c := by omega
          simp [hy, hx, ih]
        · by_cases hx : x.2 = c <;> simp [hy, hx, ih]

/-- Helper: the stable sort keeps each count class in original order, the
formal statement of tie-break stability. -/
theorem sortByCountDesc_filter (l : List (String × Nat)) (c : Nat) :
    (sortByCountDesc l).filter (fun p => p.2 == c) = l.filter (fun p => p.2 == c) := by
  induction l with
  | nil => simp [sortByCountDesc]
  | cons x l ih =>
      rw [sortByCountDesc, insertByCountDesc_filter, List.filter_cons]
      by_cases hx : x.2 = c <;> simp [hx, ih]

/-- The quiz of the C9 scenario whose reviews fail. -/
def quizQuantum : QuizItem :=
  { id := "qQ", topic := "Quantum", question := "q", expectedAnswer := "a"
    difficulty := 3, tags := [], createdAt := 0, sourceFile := none }

/-- The quiz of the C9 scenario whose reviews pass. -/
def quizOther : QuizItem :=
  { id := "qX", topic := "Algebra", question := "q", expectedAnswer := "a"
    difficulty := 3, tags := [], createdAt := 0, sourceFile := none }

/-- A bare review record. -/
def mkReview (q : String) (t : Int) (res : ReviewResult) : ReviewRecord :=
  { quizId := q, reviewedAt := t, userAnswer := none, result := res, feedback := none }

/-- The C9 scenario dataset: 10 reviews inside the 7-day window ending at
day 10, of which 7 pass and the 3 fails are all on the topic Quantum. -/
def dbQuantum : QuizDatabase :=
  { createEmpty 0 with
      quizzes := [quizQuantum, quizOther]
      reviews :=
        [ mkReview "qX" 4 ReviewResult.pass
        , mkReview "qQ" 4 ReviewResult.fail
        , mkReview "qX" 5 ReviewResult.pass
        , mkReview "qX" 6 ReviewResult.pass
        , mkReview "qQ" 6 ReviewResult.fail
        , mkReview "qX" 7 ReviewResult.pass
        , mkReview "qX" 8 ReviewResult.pass
        , mkReview "qQ" 8 ReviewResult.fail
        , mkReview "qX" 9 ReviewResult.pass
        , mkReview "qX" 10 ReviewResult.pass ] }

/-- C9, amended.  The failure ranking of the weekly report tallies the
fail-result reviews of the window per item id, keyed in the order of each
item's first fail (not its first appearance in the review list), sorts the
tallies descending by fail count with ties keeping that first-fail order
(each count class of the ranking is the corresponding count class of the
tally, unreordered), takes the top 5, and maps each entry to a
`WeaknessItem` with the item's topic, the fail count and the fixed
suggestion string naming that topic; on the scenario with 10 windowed
reviews whose 3 fails are all on topic Quantum, the first weakness is
topic Quantum with fail count 3. -/
theorem c9_weekly_failure_ranking_amended (db : QuizDatabase) (now : Int) :
    (generateWeeklyReport db now).topWeaknesses =
      ((sortByCountDesc (tallyFails (getRecentReviews db 7 now))).take 5).map
        (toWeaknessItem db) ∧
    ((tallyFails (getRecentReviews db 7 now)).map Prod.fst =
      dedupKeepFirst (failSeq (getRecentReviews db 7 now))) ∧
    (∀ p ∈ tallyFails (getRecentReviews db 7 now),
      p.2 = (failSeq (getRecentReviews db 7 now)).count p.1) ∧
    List.Sorted (fun a b : String × Nat => b.2 ≤ a.2)
      (sortByCountDesc (tallyFails (getRecentReviews db 7 now))) ∧
    (sortByCountDesc (tallyFails (getRecentReviews db 7 now))).Perm
      (tallyFails (getRecentReviews db 7 now)) ∧
    (∀ c : Nat,
      (sortByCountDesc (tallyFails (getRecentReviews db 7 now))).filter
          (fun p => p.2 == c) =
        (tallyFails (getRecentReviews db 7 now)).filter (fun p => p.2 == c)) ∧
    (∀ e : String × Nat, toWeaknessItem db e =
      ⟨e.1, ((getQuiz db e.1).map (fun q => q.topic)).getD "알 수 없음", e.2, none,
        "\"" ++ ((getQuiz db e.1).map (fun q => q.topic)).getD "" ++
          "\" 주제를 다시 학습하고 /spar 로 스파링해보세요."⟩) ∧
    (generateWeeklyReport dbQuantum 10).totalReviews = 10 ∧
    (generateWeeklyReport dbQuantum 10).topWeaknesses.head? =
      some ⟨"qQ", "Quantum", 3, none,
        "\"Quantum\" 주제를 다시 학습하고 /spar 로 스파링해보세요."⟩ := by
  refine ⟨rfl, tallyFails_keys _, tallyFails_val _, sortByCountDesc_sorted _,
    sortByCountDesc_perm _, fun c => sortByCountDesc_filter _ c, fun e => rfl,
    by decide, by decide⟩

/-- Witness for C9 at a concrete input: the Quantum entry of the scenario
tally counts its three fails. -/
theorem c9_weekly_failure_ranking_amended_witness :
    (("qQ", 3) : String × Nat).2 =
      (failSeq (getRecentReviews dbQuantum 7 10)).count (("qQ", 3) : String × Nat).1 :=
  (c9_weekly_failure_ranking_amended dbQuantum 10).2.2.1 ("qQ", 3) (by decide)

/-- The failure ranking as claim C9 words it: tally fail counts per item
id, sort descending by count with ties broken by the order in which the
item was first encountered in the review list (with any result, not only
fails), and keep the top 5. -/
def claimTieBreakRanking (reviews : List ReviewRecord) : List (String × Nat) :=
  (sortByCountDesc
    ((dedupKeepFirst (reviews.map (fun r => r.quizId))).filterMap
      (fun q =>
        if (failSeq reviews).count q = 0 then none
        else some (q, (failSeq reviews).count q)))).take 5

/-- First tie-break quiz of the C9 counterexample. -/
def quizTieA : QuizItem :=
  { id := "qA", topic := "TA", question := "q", expectedAnswer := "a"
    difficulty := 3, tags := [], createdAt := 0, sourceFile := none }

/-- Second tie-break quiz of the C9 counterexample. -/
def quizTieB : QuizItem :=
  { id := "qB", topic := "TB", question := "q", expectedAnswer := "a"
    difficulty := 3, tags := [], createdAt := 0, sourceFile := none }

/-- The C9 counterexample dataset: item A is encountered first in the
review list (with a pass), but item B fails first; both end with one
fail. -/
def dbTie : QuizDatabase :=
  { createEmpty 0 with
      quizzes := [quizTieA, quizTieB]
      reviews :=
        [ mkReview "qA" 5 ReviewResult.pass
        , mkReview "qB" 5 ReviewResult.fail
        , mkReview "qA" 5 ReviewResult.fail ] }

/-- C9, counterexample.  With one pass on A, then one fail on B, then one
fail on A, the code ranks B before A (ties keep first-fail order, and B
failed first), while the claimed tie-break by first encounter in the
review list would rank A before B (A was encountered first, with its
pass); the two orders differ at this input. -/
theorem c9_tie_break_counterexample :
    (generateWeeklyReport dbTie 10).topWeaknesses.map (fun w => w.quizId) = ["qB", "qA"] ∧
    (claimTieBreakRanking (getRecentReviews dbTie 7 10)).map Prod.fst = ["qA", "qB"] ∧
    (generateWeeklyReport dbTie 10).topWeaknesses.map (fun w => w.quizId) ≠
      (claimTieBreakRanking (getRecentReviews dbTie 7 10)).map Prod.fst := by
  refine ⟨by decide, by decide, by decide⟩
